import Mathlib

/-!
# Verification of the aigo_service_auth core

A shallow embedding of the token lifecycle / revocation engine (`jwt.go`),
the password generator, strength checker, history storage and hashers
(`part_008`, `part_001`), together with proofs settling the frozen claims.

Modelling conventions:
* `time.Time` / `time.Duration` values are integers (seconds); `jwt.NumericDate.Before`
  is strict `<`, exactly as in the Go library.
* A signed JWT string is modelled by `Tok.signed claims key`: the claims it carries and
  the HMAC key it was signed with.  Any other string (malformed, not a JWT) is
  `Tok.raw s`; the empty token string is `Tok.raw ""`.
* Go maps are association lists with `alook` / `aset` / `adel`; Go map writes overwrite,
  which `aset` mirrors.
* `crypto/rand` is an explicit input: callers pass the fresh JTI (for the token engine)
  or a stream of random integers (for the password generator).
* Go `uint`/`int` identifiers and counts are `Nat` where the code keeps them
  non-negative (user ids, refresh counts, lengths); timestamps are `Int`.
-/

/-- Association-list lookup (first binding wins), the observation function for Go maps. -/
def alook {K V : Type} [DecidableEq K] : List (K × V) → K → Option V
  | [], _ => none
  | (a, b) :: m, k => if k = a then some b else alook m k

/-- Association-list delete: drop every binding of key `k` (Go `delete(m, k)`). -/
def adel {K V : Type} [DecidableEq K] (m : List (K × V)) (k : K) : List (K × V) :=
  m.filter (fun p => p.1 ≠ k)

/-- Association-list set: Go `m[k] = v` (overwrites any previous binding). -/
def aset {K V : Type} [DecidableEq K] (m : List (K × V)) (k : K) (v : V) : List (K × V) :=
  (k, v) :: adel m k

/-- JWT claims carried by a token (`JWTClaims` in jwt.go).  `expiresAt`, `issuedAt` and
`notBefore` are optional because a foreign token may omit them; tokens issued by the
service always set all three. -/
structure JWTClaims where
  userID : Nat
  jti : String
  expiresAt : Option Int
  issuedAt : Option Int
  notBefore : Option Int
  issuer : String
deriving DecidableEq, Repr

/-- A token string.  `signed c key` is a well-formed JWT over claims `c` signed (HS256)
with `key`; `raw s` is any other string, including the empty one. -/
inductive Tok where
  | signed (c : JWTClaims) (key : String)
  | raw (s : String)
deriving DecidableEq, Repr

/-- Whether the token string is the empty string (`tokenString == ""` in the Go code). -/
def tokEmpty : Tok → Bool
  | .raw s => s = ""
  | .signed _ _ => false

/-- `JWTConfig` from jwt.go.  Durations in seconds. -/
structure JWTConfig where
  secretKey : String
  defaultExpiration : Int
  refreshExpiration : Int
  issuer : String
  allowRefresh : Bool
  maxRefreshCount : Nat
deriving DecidableEq, Repr

/-- `DefaultJWTConfig` from jwt.go: 24h default expiration, 7-day refresh window,
at most 5 refreshes. -/
def defaultJWTConfig : JWTConfig :=
  { secretKey := "default-secret-key"
  , defaultExpiration := 86400
  , refreshExpiration := 604800
  , issuer := "aigo_service_auth"
  , allowRefresh := true
  , maxRefreshCount := 5 }

/-- The mutable maps of `jwtService` (jwt.go): revocation map (token → revocation time),
per-user token index, reverse index, and refresh counts. -/
structure JwtState where
  revokedTokens : List (Tok × Int)
  userTokens : List (Nat × List Tok)
  tokenUsers : List (Tok × Nat)
  refreshCounts : List (Tok × Nat)
deriving DecidableEq, Repr

/-- The state `NewJWTService` starts from: all four maps empty. -/
def emptyJwtState : JwtState :=
  { revokedTokens := [], userTokens := [], tokenUsers := [], refreshCounts := [] }

/-- Error taxonomy of the token engine (the distinct error messages of jwt.go). -/
inductive JwtErr where
  | emptyToken
  | revoked
  | parseFailed
  | invalidUserID
  | invalidExpiration
  | refreshDisabled
  | refreshLimit
  | tooEarly
deriving DecidableEq, Repr

/-- The claims `GenerateTokenWithExpiration` builds at time `now` for user `userID`
with freshly drawn `jti`: expiry `now + expiration`, issued-at and not-before `now`. -/
def mkGenClaims (cfg : JWTConfig) (userID : Nat) (expiration now : Int) (jti : String) :
    JWTClaims :=
  { userID := userID
  , jti := jti
  , expiresAt := some (now + expiration)
  , issuedAt := some now
  , notBefore := some now
  , issuer := cfg.issuer }

/-- `GenerateTokenWithExpiration` (jwt.go:110).  Rejects a zero user id and a
non-positive ttl; otherwise signs the claims and records the token in the per-user
index and the reverse index.  The fresh random JTI is an explicit argument. -/
def generateTokenWithExpiration (cfg : JWTConfig) (s : JwtState) (userID : Nat)
    (expiration now : Int) (jti : String) : Except JwtErr (Tok × JwtState) :=
  if userID = 0 then .error .invalidUserID
  else if expiration ≤ 0 then .error .invalidExpiration
  else
    let t : Tok := .signed (mkGenClaims cfg userID expiration now jti) cfg.secretKey
    .ok (t, { s with
      userTokens := aset s.userTokens userID (((alook s.userTokens userID).getD []) ++ [t])
      tokenUsers := aset s.tokenUsers t userID })

/-- `GenerateToken` (jwt.go:105): generate with the configured default expiration. -/
def generateToken (cfg : JWTConfig) (s : JwtState) (userID : Nat) (now : Int)
    (jti : String) : Except JwtErr (Tok × JwtState) :=
  generateTokenWithExpiration cfg s userID cfg.defaultExpiration now jti

/-- `not-before` validation done by `jwt.ParseWithClaims` (golang-jwt v5): a present
`nbf` must not be in the future. -/
def nbfOk (c : JWTClaims) (now : Int) : Bool :=
  match c.notBefore with
  | none => true
  | some nb => nb ≤ now

/-- expiry validation done by `jwt.ParseWithClaims` (golang-jwt v5): a present `exp`
must be strictly in the future (`now < exp`). -/
def expOk (c : JWTClaims) (now : Int) : Bool :=
  match c.expiresAt with
  | none => true
  | some e => now < e

/-- `ParseToken` (jwt.go:169): rejects the empty string, then parses and
signature-verifies.  Succeeds exactly on a token signed with the service key whose
`nbf`/`exp` claims pass the library's checks at time `now`. -/
def parseToken (cfg : JWTConfig) (t : Tok) (now : Int) : Except JwtErr JWTClaims :=
  match t with
  | .raw s => if s = "" then .error .emptyToken else .error .parseFailed
  | .signed c k =>
      if k = cfg.secretKey ∧ nbfOk c now ∧ expOk c now then .ok c else .error .parseFailed

/-- `parseTokenUnsafe` (jwt.go:257): parse without verifying the signature; only the
claims are recovered.  Fails exactly on strings that are not JWTs at all. -/
def parseTokenUnverified : Tok → Option JWTClaims
  | .signed c _ => some c
  | .raw _ => none

/-- `IsTokenRevoked` (jwt.go:224): pure membership test on the revocation map. -/
def isTokenRevoked (s : JwtState) (t : Tok) : Bool :=
  (alook s.revokedTokens t).isSome

/-- `ValidateToken` (jwt.go:150): empty check, then revocation check, then parse;
returns the embedded user id. -/
def validateToken (cfg : JWTConfig) (s : JwtState) (t : Tok) (now : Int) :
    Except JwtErr Nat :=
  if tokEmpty t then .error .emptyToken
  else if isTokenRevoked s t then .error .revoked
  else (parseToken cfg t now).map (fun c => c.userID)

/-- `RevokeToken` (jwt.go:193): records the revocation time, removes the token from
both indices (when present) and drops its refresh count. -/
def revokeToken (s : JwtState) (t : Tok) (now : Int) : Except JwtErr JwtState :=
  if tokEmpty t then .error .emptyToken
  else
    let s1 := { s with revokedTokens := aset s.revokedTokens t now }
    let s2 :=
      match alook s1.tokenUsers t with
      | some uid =>
          let s1' :=
            match alook s1.userTokens uid with
            | some tks =>
                { s1 with userTokens := aset s1.userTokens uid (tks.filter (fun tk => tk ≠ t)) }
            | none => s1
          { s1' with tokenUsers := adel s1'.tokenUsers t }
      | none => s1
    .ok { s2 with refreshCounts := adel s2.refreshCounts t }

/-- The keep-condition of `CleanupExpiredTokens` (jwt.go:241-246): an entry survives
iff its token parses (unverified) and does not carry an expiry strictly in the past.
Unparseable entries are removed (`err != nil`); entries with no expiry are kept. -/
def keepRevoked (t : Tok) (now : Int) : Bool :=
  match parseTokenUnverified t with
  | none => false
  | some c =>
      match c.expiresAt with
      | none => true
      | some e => if e < now then false else true

/-- `CleanupExpiredTokens` (jwt.go:233): filter the revocation map with `keepRevoked`. -/
def cleanupExpiredTokens (s : JwtState) (now : Int) : JwtState :=
  { s with revokedTokens := s.revokedTokens.filter (fun p => keepRevoked p.1 now) }

/-- `RefreshToken` (jwt.go:294).  Checks, in the source order: refresh enabled, token
non-empty, token parses, lineage count below the cap, refresh window open
(`now < exp - RefreshExpiration` is "too early"); then generates a new token with the
default expiration (fresh `jti` explicit), stores the incremented count under the new
token and revokes the original.  The rollback branch for a failing revocation is kept
although the revocation of a non-empty token never fails. -/
def refreshToken (cfg : JWTConfig) (s : JwtState) (t : Tok) (now : Int) (jti : String) :
    Except JwtErr (Tok × JwtState) :=
  if ¬ cfg.allowRefresh then .error .refreshDisabled
  else if tokEmpty t then .error .emptyToken
  else
    match parseToken cfg t now with
    | .error _ => .error .parseFailed
    | .ok c =>
        if cfg.maxRefreshCount ≤ (alook s.refreshCounts t).getD 0 then .error .refreshLimit
        else if (match c.expiresAt with
                 | some e => decide (now < e - cfg.refreshExpiration)
                 | none => false) then .error .tooEarly
        else
          match generateToken cfg s c.userID now jti with
          | .error e => .error e
          | .ok (newTok, s1) =>
              match revokeToken
                  { s1 with
                      refreshCounts :=
                        aset s1.refreshCounts newTok
                          ((alook s.refreshCounts t).getD 0 + 1) }
                  t now with
              | .error e => .error e
              | .ok s3 => .ok (newTok, s3)

/-- Loop body of `RevokeAllUserTokens` (jwt.go:364-369): mark one token revoked at
time `now` and drop it from the reverse index and the refresh counts. -/
def revokeOneStep (now : Int) (st : JwtState) (tk : Tok) : JwtState :=
  { st with
      revokedTokens := aset st.revokedTokens tk now
      tokenUsers := adel st.tokenUsers tk
      refreshCounts := adel st.refreshCounts tk }

/-- `RevokeAllUserTokens` (jwt.go:351): revoke every indexed token of the user and
clear the user's index entry. -/
def revokeAllUserTokens (s : JwtState) (userID : Nat) (now : Int) :
    Except JwtErr JwtState :=
  if userID = 0 then .error .invalidUserID
  else
    match alook s.userTokens userID with
    | none => .ok s
    | some tokens =>
        let s1 := tokens.foldl (revokeOneStep now) s
        .ok { s1 with userTokens := adel s1.userTokens userID }

/-- One externally visible mutating call on the service, with its inputs. -/
inductive JwtOp where
  | gen (userID : Nat) (ttl : Int) (jti : String)
  | revoke (t : Tok)
  | refresh (t : Tok) (jti : String)
  | revokeAll (userID : Nat)
  | cleanup
deriving DecidableEq, Repr

/-- Execute one call at time `now`.  A call that returns an error leaves the maps
unchanged, exactly as in jwt.go (every mutation happens after all error returns). -/
def applyOp (cfg : JWTConfig) (s : JwtState) (now : Int) : JwtOp → JwtState
  | .gen u ttl j =>
      match generateTokenWithExpiration cfg s u ttl now j with
      | .ok (_, s') => s'
      | .error _ => s
  | .revoke t =>
      match revokeToken s t now with
      | .ok s' => s'
      | .error _ => s
  | .refresh t j =>
      match refreshToken cfg s t now j with
      | .ok (_, s') => s'
      | .error _ => s
  | .revokeAll u =>
      match revokeAllUserTokens s u now with
      | .ok s' => s'
      | .error _ => s
  | .cleanup => cleanupExpiredTokens s now

/-- States reachable through service calls all executed at times `≤ deadline`. -/
inductive ReachUpTo (cfg : JWTConfig) (deadline : Int) : JwtState → JwtState → Prop
  | refl (s : JwtState) : ReachUpTo cfg deadline s s
  | step (s s' : JwtState) (now : Int) (op : JwtOp) :
      ReachUpTo cfg deadline s s' → now ≤ deadline →
      ReachUpTo cfg deadline s (applyOp cfg s' now op)

/-- Iterated refresh: perform one `RefreshToken` call per jti in `jtis`, each on the
token returned by the previous call (the latest token of the lineage). -/
def iterRefresh (cfg : JWTConfig) (now : Int) :
    JwtState → Tok → List String → Except JwtErr (Tok × JwtState)
  | s, t, [] => .ok (t, s)
  | s, t, j :: js =>
      match refreshToken cfg s t now j with
      | .error e => .error e
      | .ok (t', s') => iterRefresh cfg now s' t' js

/-- Errors of the password components (`part_008` / `part_001`).  `outOfFuel` and
`randFailure` are artifacts of the explicit recursion bound and random stream: the Go
code recurses with unbounded depth on fresh randomness and treats `crypto/rand`
failure as an error. -/
inductive PwdErr where
  | invalidOptions
  | outOfFuel
  | randFailure
  | passwordEmpty
  | hashingFailed
  | invalidUserID
  | invalidHash
deriving DecidableEq, Repr

/-- `LowerChars` (part_008). -/
def lowerChars : List Char := "abcdefghijklmnopqrstuvwxyz".toList

/-- `UpperChars` (part_008). -/
def upperChars : List Char := "ABCDEFGHIJKLMNOPQRSTUVWXYZ".toList

/-- `NumberChars` (part_008). -/
def numberChars : List Char := "0123456789".toList

/-- `SymbolChars` (part_008). -/
def symbolChars : List Char := "!@#$%^&*()_+-=[]\x7b\x7d|;:,.<>?".toList

/-- `AmbiguousChars` (part_008). -/
def ambiguousChars : List Char := "0O1lI|`".toList

/-- Go `strings.ContainsAny(p, cs)`: does `p` contain at least one character of `cs`? -/
def containsAnyOf (p cs : List Char) : Bool :=
  p.any (fun ch => cs.contains ch)

/-- `GenerateOptions` (part_008).  Passwords and charsets are ASCII, so Go byte
strings are `List Char`; Go's `int` length is a `Nat` (the `Length <= 0` validation
collapses to `= 0`). -/
structure GenerateOptions where
  length : Nat
  includeLower : Bool
  includeUpper : Bool
  includeNumbers : Bool
  includeSymbols : Bool
  excludeAmbiguous : Bool
  customCharset : List Char
deriving DecidableEq, Repr

/-- `removeAmbiguousChars` (part_008): drop every ambiguous character. -/
def removeAmbiguousChars (cs : List Char) : List Char :=
  cs.filter (fun ch => ¬ ambiguousChars.contains ch)

/-- `buildCharset` (part_008): a custom charset overrides the class flags; the
ambiguous-exclusion filter applies in both cases. -/
def buildCharset (o : GenerateOptions) : List Char :=
  if o.customCharset ≠ [] then
    if o.excludeAmbiguous then removeAmbiguousChars o.customCharset else o.customCharset
  else
    let base :=
      (if o.includeLower then lowerChars else []) ++
      (if o.includeUpper then upperChars else []) ++
      (if o.includeNumbers then numberChars else []) ++
      (if o.includeSymbols then symbolChars else [])
    if o.excludeAmbiguous then removeAmbiguousChars base else base

/-- `meetsRequirements` (part_008): with a custom charset there is nothing to check;
otherwise every requested class must be present. -/
def meetsRequirements (p : List Char) (o : GenerateOptions) : Bool :=
  if o.customCharset ≠ [] then true
  else if o.includeLower ∧ ¬ containsAnyOf p lowerChars then false
  else if o.includeUpper ∧ ¬ containsAnyOf p upperChars then false
  else if o.includeNumbers ∧ ¬ containsAnyOf p numberChars then false
  else if o.includeSymbols ∧ ¬ containsAnyOf p symbolChars then false
  else true

/-- The character-drawing loop of `GeneratePassword`: each password position consumes
one value of the random stream and indexes the charset modulo its size
(`secureRandomInt`).  `none` models the `crypto/rand` failure path (stream
exhausted). -/
def drawChars (charset : List Char) : Nat → List Nat → Option (List Char × List Nat)
  | 0, st => some ([], st)
  | _ + 1, [] => none
  | n + 1, r :: st =>
      match drawChars charset n st with
      | none => none
      | some (cs, rest) => some (charset.getD (r % charset.length) (' ') :: cs, rest)

/-- One class-patch step of `ensureRequirements` (part_008): if the class is requested
but absent from the *original* password, overwrite `res[position]` with a random
character of the class (index 0 when the random source fails, mirroring the ignored
error) and advance the position. -/
def patchClass (orig cls : List Char) (needed : Bool) (res : List Char)
    (position : Nat) (st : List Nat) : List Char × Nat × List Nat :=
  if needed ∧ ¬ containsAnyOf orig cls then
    if position < res.length then
      match st with
      | [] => (res.set position (cls.getD 0 (' ')), position + 1, [])
      | r :: st' => (res.set position (cls.getD (r % cls.length) (' ')), position + 1, st')
    else (res, position, st)
  else (res, position, st)

/-- `ensureRequirements` (part_008): patch one character per missing requested class
at the front of the string; a custom charset needs no adjustment. -/
def ensureRequirements (orig : List Char) (o : GenerateOptions) (st : List Nat) :
    List Char × List Nat :=
  if o.customCharset ≠ [] then (orig, st)
  else
    let r1 := patchClass orig lowerChars o.includeLower orig 0 st
    let r2 := patchClass orig upperChars o.includeUpper r1.1 r1.2.1 r1.2.2
    let r3 := patchClass orig numberChars o.includeNumbers r2.1 r2.2.1 r2.2.2
    let r4 := patchClass orig symbolChars o.includeSymbols r3.1 r3.2.1 r3.2.2
    (r4.1, r4.2.2)

/-- The retry loop of `GeneratePassword` (10 attempts): each attempt regenerates with
fresh randomness via `gp`; an error aborts, a requirement-meeting result returns, and
exhaustion falls back to patching the original draw with `ensureRequirements`. -/
def attemptsLoopG (gp : List Nat → Except PwdErr (List Char × List Nat))
    (o : GenerateOptions) (orig : List Char) :
    Nat → List Nat → Except PwdErr (List Char × List Nat)
  | 0, st => .ok (ensureRequirements orig o st)
  | k + 1, st =>
      match gp st with
      | .error e => .error e
      | .ok (r, st') =>
          if meetsRequirements r o then .ok (r, st') else attemptsLoopG gp o orig k st'

/-- `GeneratePassword` (part_008:399).  Validation (`validateOptions` inlined), charset
construction, the character draw, the requirements check, and the recursive retry
loop.  `fuel` bounds the recursion depth, which the Go code leaves unbounded (it
terminates only with probability 1); every claim is proved for all fuel values. -/
def generatePassword (fuel : Nat) (o : GenerateOptions) (stream : List Nat) :
    Except PwdErr (List Char × List Nat) :=
  match fuel with
  | 0 => .error .outOfFuel
  | fuel + 1 =>
      if o.length = 0 then .error .invalidOptions
      else if 256 < o.length then .error .invalidOptions
      else if ¬ o.includeLower ∧ ¬ o.includeUpper ∧ ¬ o.includeNumbers ∧
          ¬ o.includeSymbols ∧ o.customCharset = [] then .error .invalidOptions
      else if buildCharset o = [] then .error .invalidOptions
      else
        match drawChars (buildCharset o) o.length stream with
        | none => .error .randFailure
        | some (pwd, st) =>
            if meetsRequirements pwd o then .ok (pwd, st)
            else attemptsLoopG (fun st2 => generatePassword fuel o st2) o pwd 10 st

/-- The ascending-run trigrams of `sequentialPattern` (part_008). -/
def seqTrigrams : List (List Char) :=
  (["abc", "bcd", "cde", "def", "efg", "fgh", "ghi", "hij", "ijk", "jkl", "klm",
    "lmn", "mno", "nop", "opq", "pqr", "qrs", "rst", "stu", "tuv", "uvw", "vwx",
    "wxy", "xyz", "012", "123", "234", "345", "456", "567", "678",
    "789"]).map String.toList

/-- The keyboard-row trigrams of `keyboardPattern` (part_008). -/
def keyboardTrigrams : List (List Char) :=
  (["qwe", "wer", "ert", "rty", "tyu", "yui", "uio", "iop", "asd", "sdf", "dfg",
    "fgh", "ghj", "hjk", "jkl", "zxc", "xcv", "cvb", "vbn",
    "bnm"]).map String.toList

/-- Substring test: regexp alternation of literal trigrams is a substring search. -/
def containsSub (needle hay : List Char) : Bool :=
  hay.tails.any (fun suf => needle.isPrefixOf suf)

/-- Go `strings.ToLower` on ASCII. -/
def toLowerList (p : List Char) : List Char := p.map Char.toLower

/-- `hasSequentialPattern` (part_008): the regex matches the lowered password. -/
def hasSequentialPattern (p : List Char) : Bool :=
  seqTrigrams.any (fun tg => containsSub tg (toLowerList p))

/-- `hasKeyboardPattern` (part_008). -/
def hasKeyboardPattern (p : List Char) : Bool :=
  keyboardTrigrams.any (fun tg => containsSub tg (toLowerList p))

/-- Scanner of `hasRepeatedChars` (part_008:1200): `prev` is the previous character
and `cnt` the current run length; report a run of three. -/
def hasRunAux : Char → Nat → List Char → Bool
  | _, _, [] => false
  | prev, cnt, ch :: rest =>
      if ch = prev then
        if 3 ≤ cnt + 1 then true else hasRunAux ch (cnt + 1) rest
      else hasRunAux ch 1 rest

/-- `hasRepeatedChars` (part_008:1200): three or more identical consecutive chars. -/
def hasRepeatedChars (p : List Char) : Bool :=
  if p.length < 3 then false
  else
    match p with
    | [] => false
    | ch :: rest => hasRunAux ch 1 rest

/-- The `commonPasswords` set (part_008:143). -/
def commonPasswords : List (List Char) :=
  (["password", "123456", "123456789", "qwerty", "abc123", "password123", "admin",
    "letmein", "welcome", "monkey", "dragon", "master", "shadow", "superman",
    "michael", "football", "baseball", "liverpool"]).map String.toList

/-- `isCommonPassword` (part_008): case-insensitive membership. -/
def isCommonPassword (p : List Char) : Bool :=
  commonPasswords.contains (toLowerList p)

/-- `countUniqueChars` (part_008): distinct characters. -/
def countUniqueChars (p : List Char) : Nat := p.dedup.length

/-- The length contribution of `CheckStrength` (part_008:198-207). -/
def lengthScore (n : Nat) : Int :=
  if n < 8 then 0 else if n < 12 then 20 else if n < 16 then 30 else 40

/-- `charTypeCount` of `CheckStrength` (part_008:215-238): number of present classes. -/
def classCount (p : List Char) : Nat :=
  (if containsAnyOf p lowerChars then 1 else 0) +
  (if containsAnyOf p upperChars then 1 else 0) +
  (if containsAnyOf p numberChars then 1 else 0) +
  (if containsAnyOf p symbolChars then 1 else 0)

/-- The uniqueness bonus of `CheckStrength` (part_008:244-249): +10 unless more than
half the characters repeat. -/
def uniqBonus (p : List Char) : Int :=
  if countUniqueChars p < p.length / 2 then 0 else 10

/-- The pattern and dictionary penalties of `CheckStrength` (part_008:252-271). -/
def strengthPenalties (dict : Bool) (p : List Char) : Int :=
  (if hasSequentialPattern p then 10 else 0) +
  (if hasRepeatedChars p then 10 else 0) +
  (if hasKeyboardPattern p then 10 else 0) +
  (if dict ∧ isCommonPassword p then 20 else 0)

/-- The final clamp of `CheckStrength` (part_008:274-279). -/
def clampScore (x : Int) : Int :=
  if x < 0 then 0 else if 100 < x then 100 else x

/-- The `Score` field computed by `CheckStrength` (part_008:183-297) for a checker
with dictionary checking `dict`.  The `Level`, `Feedback`, `Entropy` and
`TimeToCrack` outputs are derived alongside and are not referenced by any claim, so
only the score is modelled; the additive structure (length + 10·classes + uniqueness
− penalties, clamped to [0,100]) is exactly the source's. -/
def checkStrengthScore (dict : Bool) (p : List Char) : Int :=
  if p = [] then 0
  else
    clampScore (lengthScore p.length + 10 * (classCount p : Int) + uniqBonus p -
      strengthPenalties dict p)

/-- `MemoryHistoryStorage` (part_008:718): per-user password-hash history in insertion
order.  The stored `CreatedAt` timestamp is never read by any modelled operation and
is omitted; an entry is its hash string. -/
structure MemoryHistoryStorage where
  histories : List (Nat × List String)
deriving DecidableEq, Repr

/-- `MemoryHistoryStorage.Add` (part_008:731): validate, then append. -/
def histAdd (s : MemoryHistoryStorage) (userID : Nat) (hash : String) :
    Except PwdErr MemoryHistoryStorage :=
  if userID = 0 then .error .invalidUserID
  else if hash = "" then .error .invalidHash
  else .ok ⟨aset s.histories userID (((alook s.histories userID).getD []) ++ [hash])⟩

/-- `MemoryHistoryStorage.Cleanup` (part_008:784): no-op below the bound; otherwise
reverse the stored slice in place and keep its first `keepCount` entries.  Go's
`keepCount` is an `int`; a negative value panics on the slice bound, so the model
uses `Nat`. -/
def histCleanup (s : MemoryHistoryStorage) (userID : Nat) (keepCount : Nat) :
    Except PwdErr MemoryHistoryStorage :=
  if userID = 0 then .error .invalidUserID
  else
    match alook s.histories userID with
    | none => .ok s
    | some hs =>
        if hs.length ≤ keepCount then .ok s
        else .ok ⟨aset s.histories userID (hs.reverse.take keepCount)⟩

/-- `PasswordHasher.Hash` (part_008:1014): reject the empty password, then defer to
bcrypt.  The bcrypt primitive is an explicit parameter (external cryptography). -/
def hasherHash (bcryptGen : String → Except Unit String) (password : String) :
    Except PwdErr String :=
  if password = "" then .error .passwordEmpty
  else
    match bcryptGen password with
    | .error _ => .error .hashingFailed
    | .ok h => .ok h

/-- `authService.HashPassword` (part_001:473): derive a key from the password and a
fresh random salt and return `base64(salt) + "$" + base64(hash)`.  The Argon2id KDF,
the base64 encoder and the random salt are explicit parameters (external
cryptography / randomness).  Note: the function performs no empty-input check. -/
def authHashPassword (kdf : String → String → String) (b64 : String → String)
    (password salt : String) : Except PwdErr String :=
  .ok (b64 salt ++ "$" ++ b64 (kdf password salt))

-- ===================================================================== THEOREMS

/-- Setting a key makes it present. -/
theorem alook_aset_self {K V : Type} [DecidableEq K] (m : List (K × V)) (k : K) (v : V) :
    alook (aset m k v) k = some v := by
  simp [alook, aset]

/-- Setting one key leaves every other key's binding unchanged. -/
theorem alook_aset_ne {K V : Type} [DecidableEq K] (m : List (K × V)) (k k' : K) (v : V)
    (h : k' ≠ k) : alook (aset m k v) k' = alook m k' := by
  induction m with
  | nil => simp [alook, aset, adel, h]
  | cons p m ih =>
      obtain ⟨a, b⟩ := p
      by_cases hak : a = k
      · subst hak
        simpa [alook, aset, adel, h] using ih
      · by_cases hka : k' = a
        · subst hka
          simp [alook, aset, adel, h, hak]
        · simpa [alook, aset, adel, h, hak, hka] using ih

/-- Deleting a key removes its binding. -/
theorem alook_adel_self {K V : Type} [DecidableEq K] (m : List (K × V)) (k : K) :
    alook (adel m k) k = none := by
  induction m with
  | nil => simp [alook, adel]
  | cons p m ih =>
      obtain ⟨a, b⟩ := p
      by_cases hak : a = k
      · subst hak
        simpa [alook, adel] using ih
      · simpa [alook, adel, hak, Ne.symm hak] using ih

/-- Deleting one key leaves every other key's binding unchanged. -/
theorem alook_adel_ne {K V : Type} [DecidableEq K] (m : List (K × V)) (k k' : K)
    (h : k' ≠ k) : alook (adel m k) k' = alook m k' := by
  induction m with
  | nil => simp [alook, adel]
  | cons p m ih =>
      obtain ⟨a, b⟩ := p
      by_cases hak : a = k
      · subst hak
        simpa [alook, adel, h] using ih
      · by_cases hka : k' = a
        · subst hka
          simp [alook, adel, hak]
        · simpa [alook, adel, hak, hka] using ih

/-- A present key stays present after any `aset`. -/
theorem isSome_alook_aset {K V : Type} [DecidableEq K] (m : List (K × V)) (k k' : K)
    (v : V) (h : (alook m k').isSome) : (alook (aset m k v) k').isSome := by
  by_cases hk : k' = k
  · subst hk; simp [alook_aset_self]
  · rwa [alook_aset_ne m k k' v hk]

/-- Filtering by a key-predicate that holds at `k` preserves `k`'s binding. -/
theorem alook_filter_keep {K V : Type} [DecidableEq K] (m : List (K × V))
    (p : K → Bool) (k : K) (h : p k = true) :
    alook (m.filter (fun e => p e.1)) k = alook m k := by
  induction m with
  | nil => simp [alook]
  | cons e m ih =>
      obtain ⟨a, b⟩ := e
      by_cases hka : k = a
      · subst hka
        simp [alook, List.filter, h]
      · by_cases hpa : p a = true
        · simpa [alook, List.filter, hpa, hka] using ih
        · simp only [List.filter, hpa]
          simpa [alook, hka] using ih

/-- C1 (token round-trip): a token generated for a nonzero identity with positive ttl
validates, immediately afterwards, to that identity — provided the freshly signed token
string is not already in the revocation map (which the 128-bit random JTI guarantees
with overwhelming probability). -/
theorem c1_token_roundtrip (cfg : JWTConfig) (s : JwtState) (u : Nat) (ttl now : Int)
    (jti : String) (t : Tok) (s' : JwtState)
    (hu : u ≠ 0) (httl : 0 < ttl)
    (hgen : generateTokenWithExpiration cfg s u ttl now jti = .ok (t, s'))
    (hfresh : isTokenRevoked s' t = false) :
    validateToken cfg s' t now = .ok u := by
  rw [generateTokenWithExpiration] at hgen
  simp only [if_neg hu, if_neg (by omega : ¬ ttl ≤ 0), Except.ok.injEq, Prod.mk.injEq] at hgen
  obtain ⟨ht, hs⟩ := hgen
  subst ht
  rw [validateToken, hfresh]
  simp [tokEmpty, parseToken, mkGenClaims, nbfOk, expOk, httl, Except.map]

/-- C1 witness: a concrete round-trip with the default configuration from the empty
service state at time 0 with ttl 10. -/
theorem c1_token_roundtrip_witness :
    validateToken defaultJWTConfig
      { revokedTokens := []
      , userTokens := [(1, [Tok.signed (mkGenClaims defaultJWTConfig 1 10 0 ("a"))
          defaultJWTConfig.secretKey])]
      , tokenUsers := [(Tok.signed (mkGenClaims defaultJWTConfig 1 10 0 ("a"))
          defaultJWTConfig.secretKey, 1)]
      , refreshCounts := [] }
      (Tok.signed (mkGenClaims defaultJWTConfig 1 10 0 ("a")) defaultJWTConfig.secretKey)
      0 = .ok 1 :=
  c1_token_roundtrip defaultJWTConfig emptyJwtState 1 10 0 ("a") _ _
    (by decide) (by decide) (by rfl) (by decide)

/-- Success shape of `GenerateTokenWithExpiration`: the inputs were valid, the token is
the signed claims built by `mkGenClaims`, and the revocation map and refresh counts are
untouched. -/
theorem generate_ok_elim (cfg : JWTConfig) (s : JwtState) (u : Nat) (expn now : Int)
    (j : String) (t' : Tok) (s' : JwtState)
    (h : generateTokenWithExpiration cfg s u expn now j = .ok (t', s')) :
    u ≠ 0 ∧ 0 < expn ∧
      t' = Tok.signed (mkGenClaims cfg u expn now j) cfg.secretKey ∧
      s'.revokedTokens = s.revokedTokens ∧ s'.refreshCounts = s.refreshCounts := by
  rw [generateTokenWithExpiration] at h
  by_cases hu : u = 0
  · rw [if_pos hu] at h; cases h
  · rw [if_neg hu] at h
    by_cases hexp : expn ≤ 0
    · rw [if_pos hexp] at h; cases h
    · rw [if_neg hexp] at h
      simp only [Except.ok.injEq, Prod.mk.injEq] at h
      obtain ⟨ht, hs⟩ := h
      subst ht; subst hs
      exact ⟨hu, by omega, rfl, rfl, rfl⟩

/-- Success shape of `RevokeToken`: the token was non-empty, its revocation time is now
recorded, and its refresh count is dropped. -/
theorem revoke_ok_elim (s : JwtState) (t : Tok) (now : Int) (s' : JwtState)
    (h : revokeToken s t now = .ok s') :
    tokEmpty t = false ∧ s'.revokedTokens = aset s.revokedTokens t now ∧
      s'.refreshCounts = adel s.refreshCounts t := by
  rw [revokeToken] at h
  by_cases he : tokEmpty t = true
  · rw [if_pos he] at h; cases h
  · rw [if_neg he] at h
    cases h
    refine ⟨by simpa using he, ?_, ?_⟩ <;>
      · split <;> first
          | rfl
          | (split <;> rfl)

/-- Revoking a non-empty token always succeeds. -/
theorem revoke_ok_intro (s : JwtState) (t : Tok) (now : Int) (he : tokEmpty t = false) :
    ∃ s', revokeToken s t now = .ok s' := by
  rw [revokeToken, if_neg (by simp [he])]
  exact ⟨_, rfl⟩

/-- A token that `ParseToken` accepts is a non-empty string. -/
theorem parse_ok_notEmpty (cfg : JWTConfig) (t : Tok) (now : Int) (c : JWTClaims)
    (h : parseToken cfg t now = .ok c) : tokEmpty t = false := by
  cases t with
  | signed c' k => rfl
  | raw s =>
      rw [parseToken] at h
      by_cases hs : s = ""
      · rw [if_pos hs] at h; cases h
      · rw [if_neg hs] at h; cases h

/-- A token that parses unverified is a signed token, hence non-empty. -/
theorem parseUnverified_some_notEmpty (t : Tok) (c : JWTClaims)
    (h : parseTokenUnverified t = some c) : tokEmpty t = false := by
  cases t with
  | signed c' k => rfl
  | raw s => cases h

/-- Success shape of `RefreshToken`: refresh was enabled, the old token parsed, its
lineage count was below the cap and the window was open; the new token is a freshly
signed default-expiration token for the same identity, the old token is now in the
revocation map, and the incremented count sits on the new token's key. -/
theorem refresh_ok_elim (cfg : JWTConfig) (s : JwtState) (t : Tok) (now : Int)
    (j : String) (t' : Tok) (s' : JwtState)
    (h : refreshToken cfg s t now j = .ok (t', s')) :
    ∃ c, parseToken cfg t now = .ok c ∧
      cfg.allowRefresh = true ∧
      (alook s.refreshCounts t).getD 0 < cfg.maxRefreshCount ∧
      (∀ e, c.expiresAt = some e → ¬ now < e - cfg.refreshExpiration) ∧
      c.userID ≠ 0 ∧ 0 < cfg.defaultExpiration ∧
      t' = Tok.signed (mkGenClaims cfg c.userID cfg.defaultExpiration now j) cfg.secretKey ∧
      s'.revokedTokens = aset s.revokedTokens t now ∧
      s'.refreshCounts =
        adel (aset s.refreshCounts t' ((alook s.refreshCounts t).getD 0 + 1)) t := by
  rw [refreshToken] at h
  by_cases hallow : cfg.allowRefresh
  case neg => rw [if_pos (by simpa using hallow)] at h; cases h
  rw [if_neg (by simpa using hallow)] at h
  by_cases he : tokEmpty t = true
  · rw [if_pos he] at h; cases h
  · rw [if_neg he] at h
    cases hp : parseToken cfg t now with
    | error e => rw [hp] at h; cases h
    | ok c =>
        rw [hp] at h
        simp only [] at h
        by_cases hcnt : cfg.maxRefreshCount ≤ (alook s.refreshCounts t).getD 0
        · rw [if_pos hcnt] at h; cases h
        · rw [if_neg hcnt] at h
          refine ⟨c, rfl, by simpa using hallow, by omega, ?_⟩
          split at h
          · cases h
          · rename_i hearly
            cases hg : generateToken cfg s c.userID now j with
            | error e => rw [hg] at h; cases h
            | ok p =>
                obtain ⟨newTok, s1⟩ := p
                rw [hg] at h
                simp only [] at h
                cases hr : revokeToken
                    { s1 with
                        refreshCounts :=
                          aset s1.refreshCounts newTok
                            ((alook s.refreshCounts t).getD 0 + 1) }
                    t now with
                | error e => rw [hr] at h; cases h
                | ok s3 =>
                    rw [hr] at h
                    simp only [Except.ok.injEq, Prod.mk.injEq] at h
                    obtain ⟨ht', hs'⟩ := h
                    subst ht'; subst hs'
                    rw [generateToken] at hg
                    obtain ⟨hu, hexp, hTok, hrev1, hcnt1⟩ :=
                      generate_ok_elim cfg s c.userID cfg.defaultExpiration now j newTok s1 hg
                    obtain ⟨-, hrev3, hcnt3⟩ := revoke_ok_elim _ t now s3 hr
                    refine ⟨?_, hu, hexp, hTok, ?_, ?_⟩
                    · intro e hee
                      rw [hee] at hearly
                      simpa using hearly
                    · rw [hrev3]
                      simpa using congrArg (fun m => aset m t now) hrev1
                    · rw [hcnt3]
                      simp only []
                      rw [hTok, hcnt1]

/-- `RefreshToken` succeeds whenever refresh is enabled, the old token parses to a
nonzero identity, the lineage count is below the cap, the refresh window is open and
the configured default expiration is positive — the revocation map is never consulted. -/
theorem refresh_ok_intro (cfg : JWTConfig) (s : JwtState) (t : Tok) (now : Int)
    (j : String) (c : JWTClaims)
    (hallow : cfg.allowRefresh = true)
    (hparse : parseToken cfg t now = .ok c)
    (hcnt : (alook s.refreshCounts t).getD 0 < cfg.maxRefreshCount)
    (hwin : ∀ e, c.expiresAt = some e → ¬ now < e - cfg.refreshExpiration)
    (hu : c.userID ≠ 0)
    (hexp : 0 < cfg.defaultExpiration) :
    ∃ s', refreshToken cfg s t now j =
      .ok (Tok.signed (mkGenClaims cfg c.userID cfg.defaultExpiration now j)
            cfg.secretKey, s') := by
  have hne := parse_ok_notEmpty cfg t now c hparse
  rw [refreshToken, if_neg (by simp [hallow]), if_neg (by simp [hne]), hparse]
  simp only []
  rw [if_neg (by omega)]
  have hearly : (match c.expiresAt with
      | some e => decide (now < e - cfg.refreshExpiration)
      | none => false) = false := by
    cases hee : c.expiresAt with
    | none => rfl
    | some e => simpa using hwin e hee
  rw [if_neg (by simp [hearly])]
  rw [generateToken, generateTokenWithExpiration, if_neg hu, if_neg (by omega)]
  simp only []
  obtain ⟨s3, hs3⟩ := revoke_ok_intro
    { s with
        userTokens := aset s.userTokens c.userID
          (((alook s.userTokens c.userID).getD []) ++
            [Tok.signed (mkGenClaims cfg c.userID cfg.defaultExpiration now j) cfg.secretKey])
        tokenUsers := aset s.tokenUsers
          (Tok.signed (mkGenClaims cfg c.userID cfg.defaultExpiration now j) cfg.secretKey)
          c.userID
        refreshCounts := aset s.refreshCounts
          (Tok.signed (mkGenClaims cfg c.userID cfg.defaultExpiration now j) cfg.secretKey)
          ((alook s.refreshCounts t).getD 0 + 1) }
    t now hne
  refine ⟨s3, ?_⟩
  rw [hs3]

/-- The `RevokeAllUserTokens` loop only adds revocations: a revoked token stays revoked. -/
theorem foldl_revokeOneStep_preserves (now : Int) (t : Tok) (tks : List Tok) :
    ∀ s : JwtState, isTokenRevoked s t = true →
      isTokenRevoked (tks.foldl (revokeOneStep now) s) t = true := by
  induction tks with
  | nil => intro s h; simpa using h
  | cons tk tks ih =>
      intro s h
      rw [List.foldl_cons]
      exact ih _ (by
        rw [isTokenRevoked] at h ⊢
        rw [revokeOneStep]
        exact isSome_alook_aset s.revokedTokens tk t now h)

/-- `RevokeAllUserTokens` never un-revokes a token. -/
theorem revokeAll_preserves_revoked (s : JwtState) (u : Nat) (now : Int) (s' : JwtState)
    (t : Tok) (h : revokeAllUserTokens s u now = .ok s')
    (hrev : isTokenRevoked s t = true) : isTokenRevoked s' t = true := by
  rw [revokeAllUserTokens] at h
  by_cases hu : u = 0
  · rw [if_pos hu] at h; cases h
  · rw [if_neg hu] at h
    cases hl : alook s.userTokens u with
    | none => rw [hl] at h; cases h; exact hrev
    | some tokens =>
        rw [hl] at h
        simp only [] at h
        cases h
        exact foldl_revokeOneStep_preserves now t tokens s hrev

/-- One service call at time `now ≤ e` cannot remove the revocation of a parseable
token whose expiry claim is `e`: generation and refresh only add revocations, and the
cleanup keep-condition holds for an unexpired parseable token. -/
theorem applyOp_preserves_revoked (cfg : JWTConfig) (s : JwtState) (t : Tok)
    (c : JWTClaims) (e now : Int) (op : JwtOp)
    (hc : parseTokenUnverified t = some c) (he : c.expiresAt = some e)
    (hnow : now ≤ e) (hrev : isTokenRevoked s t = true) :
    isTokenRevoked (applyOp cfg s now op) t = true := by
  cases op with
  | gen u ttl j =>
      rw [applyOp]
      cases hg : generateTokenWithExpiration cfg s u ttl now j with
      | error e => exact hrev
      | ok p =>
          obtain ⟨t', s'⟩ := p
          obtain ⟨-, -, -, hr, -⟩ := generate_ok_elim cfg s u ttl now j t' s' hg
          simpa [isTokenRevoked, hr] using hrev
  | revoke t2 =>
      rw [applyOp]
      cases hg : revokeToken s t2 now with
      | error e => exact hrev
      | ok s' =>
          obtain ⟨-, hr, -⟩ := revoke_ok_elim s t2 now s' hg
          rw [isTokenRevoked, hr]
          exact isSome_alook_aset s.revokedTokens t2 t now hrev
  | refresh t2 j =>
      rw [applyOp]
      cases hg : refreshToken cfg s t2 now j with
      | error e => exact hrev
      | ok p =>
          obtain ⟨t', s'⟩ := p
          obtain ⟨c2, -, -, -, -, -, -, -, hr, -⟩ :=
            refresh_ok_elim cfg s t2 now j t' s' hg
          rw [isTokenRevoked, hr]
          exact isSome_alook_aset s.revokedTokens t2 t now hrev
  | revokeAll u =>
      rw [applyOp]
      cases hg : revokeAllUserTokens s u now with
      | error e => exact hrev
      | ok s' => exact revokeAll_preserves_revoked s u now s' t hg hrev
  | cleanup =>
      rw [applyOp, cleanupExpiredTokens, isTokenRevoked]
      have hkeep : keepRevoked t now = true := by
        rw [keepRevoked, hc]
        simp only [he]
        rw [if_neg (by omega)]
      rw [alook_filter_keep s.revokedTokens (fun tk => keepRevoked tk now) t hkeep]
      exact hrev

/-- Revocation of a parseable, not-yet-expired token survives any sequence of service
calls executed before the token's expiry. -/
theorem reach_preserves_revoked (cfg : JWTConfig) (t : Tok) (c : JWTClaims) (e : Int)
    (hc : parseTokenUnverified t = some c) (he : c.expiresAt = some e)
    (s0 s' : JwtState) (hreach : ReachUpTo cfg e s0 s')
    (hrev : isTokenRevoked s0 t = true) : isTokenRevoked s' t = true := by
  induction hreach with
  | refl => exact hrev
  | step s1 now op hr hnow ih =>
      exact applyOp_preserves_revoked cfg s1 t c e now op hc he hnow ih

/-- C2 (revocation finality): once `RevokeToken(t)` succeeds on a parseable token
carrying expiry `e`, every later `ValidateToken(t)` fails with the Revoked error in
every state reachable through service calls executed at times `≤ e` — i.e. until the
token's natural expiry lets the cleanup routine drop the record. -/
theorem c2_revocation_finality (cfg : JWTConfig) (s : JwtState) (t : Tok)
    (nowR : Int) (s0 : JwtState) (c : JWTClaims) (e : Int) (s' : JwtState) (now : Int)
    (hrevoke : revokeToken s t nowR = .ok s0)
    (hc : parseTokenUnverified t = some c) (he : c.expiresAt = some e)
    (hreach : ReachUpTo cfg e s0 s') :
    validateToken cfg s' t now = .error .revoked := by
  have hne := parseUnverified_some_notEmpty t c hc
  obtain ⟨-, hr0, -⟩ := revoke_ok_elim s t nowR s0 hrevoke
  have hrev0 : isTokenRevoked s0 t = true := by
    rw [isTokenRevoked, hr0, alook_aset_self]
    rfl
  have hrev' := reach_preserves_revoked cfg t c e hc he s0 s' hreach hrev0
  rw [validateToken, if_neg (by simp [hne]), if_pos (by simp [hrev'])]

/-- C2 witness: revoke a concrete signed token (expiry 100) in the empty-state service
at time 0, run a cleanup at time 50; validation at time 60 still reports Revoked. -/
theorem c2_revocation_finality_witness :
    validateToken defaultJWTConfig
      (applyOp defaultJWTConfig
        { revokedTokens :=
            [(Tok.signed ⟨1, "x", some 100, some 0, some 0, "aigo_service_auth"⟩
               "default-secret-key", 0)]
        , userTokens := [], tokenUsers := [], refreshCounts := [] }
        50 .cleanup)
      (Tok.signed ⟨1, "x", some 100, some 0, some 0, "aigo_service_auth"⟩
        "default-secret-key")
      60 = .error .revoked :=
  c2_revocation_finality defaultJWTConfig emptyJwtState
    (Tok.signed ⟨1, "x", some 100, some 0, some 0, "aigo_service_auth"⟩
      "default-secret-key")
    0 _ ⟨1, "x", some 100, some 0, some 0, "aigo_service_auth"⟩ 100 _ 60
    (by rfl) (by rfl) (by rfl)
    (ReachUpTo.step _ _ 50 .cleanup (ReachUpTo.refl _) (by decide))

/-- A default-expiration token issued at `now` parses successfully at `now` whenever
the configured expiration is positive. -/
theorem parse_mkGenClaims (cfg : JWTConfig) (u : Nat) (d now : Int) (j : String)
    (hd : 0 < d) :
    parseToken cfg (Tok.signed (mkGenClaims cfg u d now j) cfg.secretKey) now =
      .ok (mkGenClaims cfg u d now j) := by
  rw [parseToken, if_pos]
  refine ⟨rfl, ?_, ?_⟩
  · simp [mkGenClaims, nbfOk]
  · simp only [mkGenClaims, expOk]
    simp only [decide_eq_true_eq]
    omega

/-- Two default-expiration tokens issued at the same instant differ iff their JTIs do. -/
theorem mkGen_tok_ne (cfg : JWTConfig) (u : Nat) (d now : Int) (j j' : String)
    (h : j ≠ j') :
    Tok.signed (mkGenClaims cfg u d now j) cfg.secretKey ≠
      Tok.signed (mkGenClaims cfg u d now j') cfg.secretKey := by
  simp [mkGenClaims, h]

/-- The identity embedded by the claims builder. -/
theorem mkGenClaims_userID (cfg : JWTConfig) (u : Nat) (d now : Int) (j : String) :
    (mkGenClaims cfg u d now j).userID = u := rfl

/-- Lineage-cap induction: starting from a token of the lineage whose bookkeeping
entry carries count `cnt`, a run of `js.length` refreshes with pairwise-fresh JTIs
succeeds as long as `cnt + js.length` stays within the cap, and leaves the final
token's entry at `cnt + js.length`. -/
theorem iterRefresh_ok_aux (cfg : JWTConfig) (now : Int) (u : Nat)
    (hallow : cfg.allowRefresh = true) (hu : u ≠ 0)
    (hexp : 0 < cfg.defaultExpiration)
    (hwin : cfg.defaultExpiration ≤ cfg.refreshExpiration) :
    ∀ (js : List String) (cnt : Nat) (s : JwtState) (j : String),
      cnt + js.length ≤ cfg.maxRefreshCount →
      List.Chain' Ne (j :: js) →
      s.refreshCounts = (if cnt = 0 then [] else
        [(Tok.signed (mkGenClaims cfg u cfg.defaultExpiration now j) cfg.secretKey, cnt)]) →
      ∃ s', iterRefresh cfg now s
          (Tok.signed (mkGenClaims cfg u cfg.defaultExpiration now j) cfg.secretKey) js =
          .ok (Tok.signed (mkGenClaims cfg u cfg.defaultExpiration now (js.getLastD j))
                cfg.secretKey, s') ∧
        s'.refreshCounts = (if cnt + js.length = 0 then [] else
          [(Tok.signed (mkGenClaims cfg u cfg.defaultExpiration now (js.getLastD j))
              cfg.secretKey, cnt + js.length)]) := by
  intro js
  induction js with
  | nil =>
      intro cnt s j hle hch hs
      exact ⟨s, rfl, by simpa using hs⟩
  | cons j' js ih =>
      intro cnt s j hle hch hs
      obtain ⟨hjj', hch'⟩ := List.chain'_cons.mp hch
      have hcur : (alook s.refreshCounts
          (Tok.signed (mkGenClaims cfg u cfg.defaultExpiration now j) cfg.secretKey)).getD 0
          = cnt := by
        rw [hs]
        by_cases hc0 : cnt = 0
        · simp [hc0, alook]
        · simp [hc0, alook]
      have hcnt : (alook s.refreshCounts
          (Tok.signed (mkGenClaims cfg u cfg.defaultExpiration now j) cfg.secretKey)).getD 0
          < cfg.maxRefreshCount := by
        rw [hcur]
        simp only [List.length_cons] at hle
        omega
      obtain ⟨s1, hs1⟩ := refresh_ok_intro cfg s
        (Tok.signed (mkGenClaims cfg u cfg.defaultExpiration now j) cfg.secretKey)
        now j' (mkGenClaims cfg u cfg.defaultExpiration now j) hallow
        (parse_mkGenClaims cfg u cfg.defaultExpiration now j hexp) hcnt
        (by
          intro e he
          rw [mkGenClaims] at he
          simp only [Option.some.injEq] at he
          omega)
        (by simpa [mkGenClaims] using hu) hexp
      rw [mkGenClaims_userID] at hs1
      obtain ⟨c2, -, -, -, -, -, -, -, -, hrc⟩ :=
        refresh_ok_elim cfg s
          (Tok.signed (mkGenClaims cfg u cfg.defaultExpiration now j) cfg.secretKey)
          now j' _ s1 hs1
      have hne21 := mkGen_tok_ne cfg u cfg.defaultExpiration now j j' hjj'
      have hrc1 : s1.refreshCounts =
          [(Tok.signed (mkGenClaims cfg u cfg.defaultExpiration now j') cfg.secretKey,
            cnt + 1)] := by
        rw [hrc, hcur, hs]
        by_cases hc0 : cnt = 0
        · simp [hc0, aset, adel, Ne.symm hne21]
        · simp [hc0, aset, adel, Ne.symm hne21, hne21]
      obtain ⟨s', hiter, hrcN⟩ := ih (cnt + 1) s1 j'
        (by simp only [List.length_cons] at hle; omega) hch'
        (by rw [hrc1]; rw [if_neg (by omega)])
      refine ⟨s', ?_, ?_⟩
      · rw [iterRefresh, hs1, List.getLastD_cons]
        exact hiter
      · have harith : cnt + (js.length + 1) = (cnt + 1) + js.length := by omega
        rw [List.length_cons, harith, List.getLastD_cons]
        exact hrcN

/-- C3 (refresh lineage cap): from a freshly generated token of a fresh service, each
of the first `MaxRefreshCount` refreshes (with pairwise-distinct fresh JTIs) succeeds,
and the next refresh of the latest token fails with the refresh-limit error.  Requires
the refresh window to be open immediately (`DefaultExpiration ≤ RefreshExpiration`,
true of the default configuration). -/
theorem c3_refresh_lineage_cap (cfg : JWTConfig) (u : Nat) (now : Int) (j0 : String)
    (js : List String) (jNext : String) (t0 : Tok) (s0 : JwtState)
    (hallow : cfg.allowRefresh = true) (hu : u ≠ 0)
    (hexp : 0 < cfg.defaultExpiration)
    (hwin : cfg.defaultExpiration ≤ cfg.refreshExpiration)
    (hlen : js.length = cfg.maxRefreshCount)
    (hch : List.Chain' Ne (j0 :: js))
    (hgen : generateToken cfg emptyJwtState u now j0 = .ok (t0, s0)) :
    ∃ tN sN, iterRefresh cfg now s0 t0 js = .ok (tN, sN) ∧
      refreshToken cfg sN tN now jNext = .error .refreshLimit := by
  rw [generateToken] at hgen
  obtain ⟨-, -, ht0, -, hrc0⟩ :=
    generate_ok_elim cfg emptyJwtState u cfg.defaultExpiration now j0 t0 s0 hgen
  subst ht0
  obtain ⟨sN, hiter, hrcN⟩ := iterRefresh_ok_aux cfg now u hallow hu hexp hwin js 0 s0 j0
    (by omega) hch (by rw [hrc0]; rfl)
  refine ⟨_, sN, hiter, ?_⟩
  have hcount : (alook sN.refreshCounts
      (Tok.signed (mkGenClaims cfg u cfg.defaultExpiration now (js.getLastD j0))
        cfg.secretKey)).getD 0 = cfg.maxRefreshCount := by
    rw [hrcN]
    by_cases hz : js.length = 0
    · rw [if_pos (by omega)]
      simp [alook]
      omega
    · rw [if_neg (by omega)]
      simp [alook, hlen]
  rw [refreshToken, if_neg (by simp [hallow]), if_neg (by simp [tokEmpty]),
    parse_mkGenClaims cfg u cfg.defaultExpiration now (js.getLastD j0) hexp]
  simp only []
  rw [if_pos (by rw [hcount])]

/-- C3 witness: with the default configuration (cap 5) and six distinct JTIs, the five
refreshes of the lineage all succeed and the sixth fails with the refresh-limit error. -/
theorem c3_refresh_lineage_cap_witness :
    ∃ tN sN, iterRefresh defaultJWTConfig 0
        { revokedTokens := []
        , userTokens := [(1, [Tok.signed (mkGenClaims defaultJWTConfig 1 86400 0 ("j0"))
            defaultJWTConfig.secretKey])]
        , tokenUsers := [(Tok.signed (mkGenClaims defaultJWTConfig 1 86400 0 ("j0"))
            defaultJWTConfig.secretKey, 1)]
        , refreshCounts := [] }
        (Tok.signed (mkGenClaims defaultJWTConfig 1 86400 0 ("j0"))
          defaultJWTConfig.secretKey)
        ["j1", "j2", "j3", "j4", "j5"] = .ok (tN, sN) ∧
      refreshToken defaultJWTConfig sN tN 0 ("j6") = .error .refreshLimit :=
  c3_refresh_lineage_cap defaultJWTConfig 1 0 ("j0") ["j1", "j2", "j3", "j4", "j5"]
    ("j6") _ _ (by decide) (by decide) (by decide) (by decide) (by decide)
    (by simp only [List.chain'_cons, List.chain'_singleton, and_true]; decide)
    (by rfl)

/-- Filtering by a key-predicate that fails at `k` removes `k`'s binding. -/
theorem alook_filter_drop {K V : Type} [DecidableEq K] (m : List (K × V))
    (p : K → Bool) (k : K) (h : p k = false) :
    alook (m.filter (fun e => p e.1)) k = none := by
  induction m with
  | nil => simp [alook]
  | cons e m ih =>
      obtain ⟨a, b⟩ := e
      by_cases hka : k = a
      · subst hka
        simp only [List.filter, h]
        exact ih
      · by_cases hpa : p a = true
        · simpa [alook, List.filter, hpa, hka] using ih
        · simp only [List.filter, hpa]
          simpa [alook, hka] using ih

/-- C4 (refresh revokes predecessor): when `RefreshToken(oldTok)` succeeds, the old
token is revoked and the returned token validates to the identity the old token
carried.  Freshness of the new token string (not already revoked, distinct from the
old token) is the JTI-uniqueness assumption. -/
theorem c4_refresh_revokes_predecessor (cfg : JWTConfig) (s : JwtState) (t : Tok)
    (now : Int) (jti : String) (c : JWTClaims) (t' : Tok) (s' : JwtState)
    (hparse : parseToken cfg t now = .ok c)
    (href : refreshToken cfg s t now jti = .ok (t', s'))
    (hfresh : isTokenRevoked s t' = false)
    (hne : t' ≠ t) :
    isTokenRevoked s' t = true ∧ validateToken cfg s' t' now = .ok c.userID := by
  obtain ⟨c2, hp2, -, -, -, -, hexp, htok, hrev, -⟩ :=
    refresh_ok_elim cfg s t now jti t' s' href
  have hc2 : c2 = c := by
    rw [hparse] at hp2
    exact (Except.ok.inj hp2).symm
  subst hc2
  constructor
  · rw [isTokenRevoked, hrev, alook_aset_self]
    rfl
  · have hnrev : isTokenRevoked s' t' = false := by
      rw [isTokenRevoked, hrev, alook_aset_ne s.revokedTokens t t' now hne]
      rw [isTokenRevoked] at hfresh
      exact hfresh
    rw [validateToken, if_neg (by rw [htok]; simp [tokEmpty]), if_neg (by simp [hnrev]),
      htok, parse_mkGenClaims cfg c2.userID cfg.defaultExpiration now jti hexp]
    rw [Except.map, mkGenClaims_userID]

/-- C4 witness: refreshing a concrete valid token in the empty-state default service
revokes it and yields a token that validates to the same identity. -/
theorem c4_refresh_revokes_predecessor_witness :
    isTokenRevoked
        { revokedTokens := [(Tok.signed (mkGenClaims defaultJWTConfig 1 86400 0 ("a"))
            defaultJWTConfig.secretKey, 0)]
        , userTokens := [(1, [Tok.signed (mkGenClaims defaultJWTConfig 1 86400 0 ("b"))
            defaultJWTConfig.secretKey])]
        , tokenUsers := [(Tok.signed (mkGenClaims defaultJWTConfig 1 86400 0 ("b"))
            defaultJWTConfig.secretKey, 1)]
        , refreshCounts := [(Tok.signed (mkGenClaims defaultJWTConfig 1 86400 0 ("b"))
            defaultJWTConfig.secretKey, 1)] }
        (Tok.signed (mkGenClaims defaultJWTConfig 1 86400 0 ("a"))
          defaultJWTConfig.secretKey) = true ∧
      validateToken defaultJWTConfig
        { revokedTokens := [(Tok.signed (mkGenClaims defaultJWTConfig 1 86400 0 ("a"))
            defaultJWTConfig.secretKey, 0)]
        , userTokens := [(1, [Tok.signed (mkGenClaims defaultJWTConfig 1 86400 0 ("b"))
            defaultJWTConfig.secretKey])]
        , tokenUsers := [(Tok.signed (mkGenClaims defaultJWTConfig 1 86400 0 ("b"))
            defaultJWTConfig.secretKey, 1)]
        , refreshCounts := [(Tok.signed (mkGenClaims defaultJWTConfig 1 86400 0 ("b"))
            defaultJWTConfig.secretKey, 1)] }
        (Tok.signed (mkGenClaims defaultJWTConfig 1 86400 0 ("b"))
          defaultJWTConfig.secretKey)
        0 = .ok 1 :=
  c4_refresh_revokes_predecessor defaultJWTConfig emptyJwtState
    (Tok.signed (mkGenClaims defaultJWTConfig 1 86400 0 ("a")) defaultJWTConfig.secretKey)
    0 ("b") (mkGenClaims defaultJWTConfig 1 86400 0 ("a")) _ _
    (by rfl) (by rfl) (by decide) (by decide)

/-- C6 (implicit; refresh ignores revocation): a token already revoked — but still
parseable, unexpired, below the refresh cap and inside the window — refreshes
successfully, and the resulting fresh token validates to the same identity.
Possession of a once-revoked token thus yields a fresh valid token. -/
theorem c6_refresh_ignores_revocation (cfg : JWTConfig) (s : JwtState) (t : Tok)
    (now : Int) (jti : String) (c : JWTClaims)
    (hallow : cfg.allowRefresh = true)
    (_hrevoked : isTokenRevoked s t = true)
    (hparse : parseToken cfg t now = .ok c)
    (hcnt : (alook s.refreshCounts t).getD 0 < cfg.maxRefreshCount)
    (hwin : ∀ e, c.expiresAt = some e → ¬ now < e - cfg.refreshExpiration)
    (hu : c.userID ≠ 0)
    (hexp : 0 < cfg.defaultExpiration)
    (hfresh : isTokenRevoked s
      (Tok.signed (mkGenClaims cfg c.userID cfg.defaultExpiration now jti)
        cfg.secretKey) = false)
    (hne : Tok.signed (mkGenClaims cfg c.userID cfg.defaultExpiration now jti)
      cfg.secretKey ≠ t) :
    ∃ s', refreshToken cfg s t now jti =
        .ok (Tok.signed (mkGenClaims cfg c.userID cfg.defaultExpiration now jti)
              cfg.secretKey, s') ∧
      validateToken cfg s'
        (Tok.signed (mkGenClaims cfg c.userID cfg.defaultExpiration now jti)
          cfg.secretKey) now = .ok c.userID := by
  obtain ⟨s', hs'⟩ := refresh_ok_intro cfg s t now jti c hallow hparse hcnt hwin hu hexp
  obtain ⟨c2, hp2, -, -, -, -, -, -, hrev, -⟩ :=
    refresh_ok_elim cfg s t now jti _ s' hs'
  refine ⟨s', hs', ?_⟩
  have hnrev : isTokenRevoked s'
      (Tok.signed (mkGenClaims cfg c.userID cfg.defaultExpiration now jti)
        cfg.secretKey) = false := by
    rw [isTokenRevoked, hrev, alook_aset_ne s.revokedTokens t _ now hne]
    rw [isTokenRevoked] at hfresh
    exact hfresh
  rw [validateToken, if_neg (by simp [tokEmpty]), if_neg (by simp [hnrev]),
    parse_mkGenClaims cfg c.userID cfg.defaultExpiration now jti hexp]
  rw [Except.map, mkGenClaims_userID]

/-- C6 witness: a concrete revoked-but-valid token still refreshes in the default
configuration and the fresh token validates. -/
theorem c6_refresh_ignores_revocation_witness :
    ∃ s', refreshToken defaultJWTConfig
        { revokedTokens := [(Tok.signed (mkGenClaims defaultJWTConfig 1 86400 0 ("a"))
            defaultJWTConfig.secretKey, 0)]
        , userTokens := [], tokenUsers := [], refreshCounts := [] }
        (Tok.signed (mkGenClaims defaultJWTConfig 1 86400 0 ("a"))
          defaultJWTConfig.secretKey)
        0 ("b") =
        .ok (Tok.signed (mkGenClaims defaultJWTConfig 1 86400 0 ("b"))
              defaultJWTConfig.secretKey, s') ∧
      validateToken defaultJWTConfig s'
        (Tok.signed (mkGenClaims defaultJWTConfig 1 86400 0 ("b"))
          defaultJWTConfig.secretKey) 0 = .ok 1 :=
  c6_refresh_ignores_revocation defaultJWTConfig
    { revokedTokens := [(Tok.signed (mkGenClaims defaultJWTConfig 1 86400 0 ("a"))
        defaultJWTConfig.secretKey, 0)]
    , userTokens := [], tokenUsers := [], refreshCounts := [] }
    (Tok.signed (mkGenClaims defaultJWTConfig 1 86400 0 ("a")) defaultJWTConfig.secretKey)
    0 ("b") (mkGenClaims defaultJWTConfig 1 86400 0 ("a"))
    (by decide) (by decide) (by rfl) (by decide) (by decide) (by decide) (by decide)
    (by decide) (by decide)

/-- C5 counterexample: an unparseable revoked token string — which has no expiry and
so has certainly not "passed its own expiry" — is nevertheless dropped by
`CleanupExpiredTokens`. -/
theorem c5_counterexample_unparseable_dropped :
    isTokenRevoked
        { revokedTokens := [(Tok.raw ("junk"), 0)]
        , userTokens := [], tokenUsers := [], refreshCounts := [] }
        (Tok.raw ("junk")) = true ∧
      parseTokenUnverified (Tok.raw ("junk")) = none ∧
      isTokenRevoked
        (cleanupExpiredTokens
          { revokedTokens := [(Tok.raw ("junk"), 0)]
          , userTokens := [], tokenUsers := [], refreshCounts := [] } 0)
        (Tok.raw ("junk")) = false := by
  decide

/-- C5 as amended: a token stays revoked across `CleanupExpiredTokens` exactly when it
was revoked and is parseable with no expiry claim strictly in the past.  In
particular a revoked *parseable* live token stays revoked; unparseable entries,
however, are dropped regardless of expiry. -/
theorem c5_amended_cleanup_keeps_live_parseable (s : JwtState) (t : Tok) (now : Int) :
    isTokenRevoked (cleanupExpiredTokens s now) t = true ↔
      (isTokenRevoked s t = true ∧
        ∃ c, parseTokenUnverified t = some c ∧ ∀ e, c.expiresAt = some e → now ≤ e) := by
  have hkeep : keepRevoked t now = true ↔
      ∃ c, parseTokenUnverified t = some c ∧ ∀ e, c.expiresAt = some e → now ≤ e := by
    rw [keepRevoked]
    cases hp : parseTokenUnverified t with
    | none => simp
    | some c =>
        simp only [Option.some.injEq]
        cases hee : c.expiresAt with
        | none =>
            simp only []
            constructor
            · intro _
              exact ⟨c, rfl, by intro e he; rw [hee] at he; cases he⟩
            · intro _; trivial
        | some e =>
            simp only []
            constructor
            · intro h
              by_cases hlt : e < now
              · rw [if_pos hlt] at h; cases h
              · exact ⟨c, rfl, by
                  intro e' he'
                  rw [hee] at he'
                  cases he'
                  omega⟩
            · rintro ⟨c', hc', hall⟩
              subst hc'
              have hle := hall e hee
              rw [if_neg (by omega)]
  rw [isTokenRevoked, cleanupExpiredTokens]
  simp only []
  by_cases hk : keepRevoked t now = true
  · rw [alook_filter_keep s.revokedTokens (fun tk => keepRevoked tk now) t hk]
    rw [isTokenRevoked]
    constructor
    · intro h
      exact ⟨h, hkeep.mp hk⟩
    · intro h
      exact h.1
  · rw [alook_filter_drop s.revokedTokens (fun tk => keepRevoked tk now) t
      (by simpa using hk)]
    constructor
    · intro h; cases h
    · rintro ⟨-, hex⟩
      exact absurd (hkeep.mpr hex) hk

/-- The drawing loop produces exactly the requested number of characters. -/
theorem drawChars_length (cs : List Char) :
    ∀ (n : Nat) (st : List Nat) (p : List Char) (rest : List Nat),
      drawChars cs n st = some (p, rest) → p.length = n := by
  intro n
  induction n with
  | zero =>
      intro st p rest h
      simp only [drawChars, Option.some.injEq, Prod.mk.injEq] at h
      rw [← h.1]
      rfl
  | succ n ih =>
      intro st p rest h
      cases st with
      | nil => simp [drawChars] at h
      | cons r st' =>
          simp only [drawChars] at h
          cases hd : drawChars cs n st' with
          | none => rw [hd] at h; cases h
          | some q =>
              obtain ⟨cs0, rest0⟩ := q
              rw [hd] at h
              simp only [Option.some.injEq, Prod.mk.injEq] at h
              obtain ⟨h1, h2⟩ := h
              subst h1
              simp [ih st' cs0 rest0 hd]

/-- If every regeneration attempt that succeeds yields a requirement-meeting password
of the right length, then so does the retry loop entered with at least one attempt
left: the `ensureRequirements` fallback at attempt 0 is unreachable, because reaching
it needs an attempt that returned a non-meeting password. -/
theorem attemptsLoop_ok (gp : List Nat → Except PwdErr (List Char × List Nat))
    (o : GenerateOptions) (orig : List Char) (L : Nat)
    (hgp : ∀ st r rest, gp st = .ok (r, rest) →
      r.length = L ∧ meetsRequirements r o = true)
    (k : Nat) (st : List Nat) (r : List Char) (rest : List Nat)
    (h : attemptsLoopG gp o orig (k + 1) st = .ok (r, rest)) :
    r.length = L ∧ meetsRequirements r o = true := by
  simp only [attemptsLoopG] at h
  cases hg : gp st with
  | error e => rw [hg] at h; cases h
  | ok p =>
      obtain ⟨r', st'⟩ := p
      rw [hg] at h
      simp only [] at h
      by_cases hm : meetsRequirements r' o = true
      · rw [if_pos hm] at h
        simp only [Except.ok.injEq, Prod.mk.injEq] at h
        obtain ⟨h1, h2⟩ := h
        subst h1
        exact hgp st r' st' hg
      · exact absurd (hgp st r' st' hg).2 hm

/-- Every successful return of `GeneratePassword` has the requested length and meets
the requirements check, for every recursion bound and random stream. -/
theorem generatePassword_ok :
    ∀ (fuel : Nat) (o : GenerateOptions) (stream : List Nat)
      (pwd : List Char) (rest : List Nat),
      generatePassword fuel o stream = .ok (pwd, rest) →
      pwd.length = o.length ∧ meetsRequirements pwd o = true := by
  intro fuel
  induction fuel with
  | zero => intro o stream pwd rest h; simp [generatePassword] at h
  | succ fuel ih =>
      intro o stream pwd rest h
      simp only [generatePassword] at h
      by_cases hl0 : o.length = 0
      · rw [if_pos hl0] at h; cases h
      · rw [if_neg hl0] at h
        by_cases hl256 : 256 < o.length
        · rw [if_pos hl256] at h; cases h
        · rw [if_neg hl256] at h
          by_cases hcls : ¬ o.includeLower ∧ ¬ o.includeUpper ∧ ¬ o.includeNumbers ∧
              ¬ o.includeSymbols ∧ o.customCharset = []
          · rw [if_pos hcls] at h; cases h
          · rw [if_neg hcls] at h
            by_cases hcs : buildCharset o = []
            · rw [if_pos hcs] at h; cases h
            · rw [if_neg hcs] at h
              cases hd : drawChars (buildCharset o) o.length stream with
              | none => rw [hd] at h; cases h
              | some p =>
                  obtain ⟨pwd0, st⟩ := p
                  rw [hd] at h
                  simp only [] at h
                  by_cases hm : meetsRequirements pwd0 o = true
                  · rw [if_pos hm] at h
                    simp only [Except.ok.injEq, Prod.mk.injEq] at h
                    obtain ⟨h1, h2⟩ := h
                    subst h1
                    exact ⟨drawChars_length (buildCharset o) o.length stream pwd0 st hd, hm⟩
                  · rw [if_neg hm] at h
                    exact attemptsLoop_ok _ o pwd0 o.length
                      (fun st2 r2 rest2 hgp2 => ih o st2 r2 rest2 hgp2) 9 st pwd rest h

/-- C7 (generator satisfies constraints): whenever `GeneratePassword` returns a
password, it has exactly `options.Length` characters, and — when no custom charset is
given — every requested character class occurs in it at least once.  This holds for
every recursion bound and random stream, with no side condition on the length: the
patch path never fires on a successful run. -/
theorem c7_generator_constraints (fuel : Nat) (o : GenerateOptions)
    (stream rest : List Nat) (pwd : List Char)
    (h : generatePassword fuel o stream = .ok (pwd, rest)) :
    pwd.length = o.length ∧
      (o.customCharset = [] →
        (o.includeLower = true → containsAnyOf pwd lowerChars = true) ∧
        (o.includeUpper = true → containsAnyOf pwd upperChars = true) ∧
        (o.includeNumbers = true → containsAnyOf pwd numberChars = true) ∧
        (o.includeSymbols = true → containsAnyOf pwd symbolChars = true)) := by
  obtain ⟨hlen, hmeets⟩ := generatePassword_ok fuel o stream pwd rest h
  refine ⟨hlen, fun hcc => ?_⟩
  rw [meetsRequirements, if_neg (by simp [hcc])] at hmeets
  by_cases h1 : o.includeLower = true ∧ ¬ containsAnyOf pwd lowerChars = true
  · rw [if_pos h1] at hmeets; cases hmeets
  · rw [if_neg h1] at hmeets
    by_cases h2 : o.includeUpper = true ∧ ¬ containsAnyOf pwd upperChars = true
    · rw [if_pos h2] at hmeets; cases hmeets
    · rw [if_neg h2] at hmeets
      by_cases h3 : o.includeNumbers = true ∧ ¬ containsAnyOf pwd numberChars = true
      · rw [if_pos h3] at hmeets; cases hmeets
      · rw [if_neg h3] at hmeets
        by_cases h4 : o.includeSymbols = true ∧ ¬ containsAnyOf pwd symbolChars = true
        · rw [if_pos h4] at hmeets; cases hmeets
        · refine ⟨fun hi => ?_, fun hi => ?_, fun hi => ?_, fun hi => ?_⟩
          · by_contra hc; exact h1 ⟨hi, hc⟩
          · by_contra hc; exact h2 ⟨hi, hc⟩
          · by_contra hc; exact h3 ⟨hi, hc⟩
          · by_contra hc; exact h4 ⟨hi, hc⟩

/-- C7 witness: a concrete two-character lower+upper generation run returning "aA". -/
theorem c7_generator_constraints_witness :
    generatePassword 1
        { length := 2, includeLower := true, includeUpper := true
        , includeNumbers := false, includeSymbols := false
        , excludeAmbiguous := false, customCharset := [] } [0, 26] =
      .ok (['a', 'A'], []) ∧
    (['a', 'A'] : List Char).length = 2 ∧
    containsAnyOf ['a', 'A'] lowerChars = true ∧
    containsAnyOf ['a', 'A'] upperChars = true := by
  have h := c7_generator_constraints 1
    { length := 2, includeLower := true, includeUpper := true
    , includeNumbers := false, includeSymbols := false
    , excludeAmbiguous := false, customCharset := [] } [0, 26] [] ['a', 'A'] (by rfl)
  exact ⟨by rfl, h.1, (h.2 rfl).1 rfl, (h.2 rfl).2.1 rfl⟩

/-- C8 (history cleanup, code bug): the interleaved run Add h1, Add h2, Add h3,
Cleanup(keep 2), Add h4, Cleanup(keep 2) ends with the entries ["h4", "h2"] — the
entry "h3", the second most recently added, has been discarded while the older "h2"
survives, because `Cleanup` reverses the stored slice in place and so corrupts the
insertion order that its next invocation relies on. -/
theorem c8_history_cleanup_interleaved_run :
    ((((((histAdd ⟨[]⟩ 1 ("h1")).bind
      (fun s => histAdd s 1 ("h2"))).bind
      (fun s => histAdd s 1 ("h3"))).bind
      (fun s => histCleanup s 1 2)).bind
      (fun s => histAdd s 1 ("h4"))).bind
      (fun s => histCleanup s 1 2)) =
      .ok ⟨[(1, ["h4", "h2"])]⟩ ∧
    ("h3" ∈ (["h4", "h2"] : List String)) = False := by
  constructor
  · rfl
  · simp

/-- C9 counterexample: two pairs of passwords violating both halves of the claimed
monotonicity.  "123qweA!qqqqqqqqqq" exercises 4 classes but collects the sequential,
keyboard and repetition penalties and misses the uniqueness bonus, scoring 50;
the same-length 1-class "azbycxdwevfugthsir" scores 60.  For fixed diversity,
the longer "aaaaaaaaa" scores 20 while the shorter "azbycxdw" scores 40. -/
theorem c9_counterexample_strength_monotonicity :
    (("123qweA!qqqqqqqqqq".toList).length = ("azbycxdwevfugthsir".toList).length ∧
      classCount ("123qweA!qqqqqqqqqq".toList) = 4 ∧
      classCount ("azbycxdwevfugthsir".toList) = 1 ∧
      checkStrengthScore true ("123qweA!qqqqqqqqqq".toList) <
        checkStrengthScore true ("azbycxdwevfugthsir".toList)) ∧
    (("azbycxdw".toList).length < ("aaaaaaaaa".toList).length ∧
      classCount ("aaaaaaaaa".toList) = classCount ("azbycxdw".toList) ∧
      checkStrengthScore true ("aaaaaaaaa".toList) <
        checkStrengthScore true ("azbycxdw".toList)) := by
  decide

/-- `clampScore` is monotone. -/
theorem clampScore_mono (x y : Int) (h : x ≤ y) : clampScore x ≤ clampScore y := by
  rw [clampScore, clampScore]
  split_ifs <;> omega

/-- `lengthScore` is monotone. -/
theorem lengthScore_mono (n m : Nat) (h : n ≤ m) : lengthScore n ≤ lengthScore m := by
  rw [lengthScore, lengthScore]
  split_ifs <;> omega

/-- C9 as amended: the claimed monotonicity holds for penalty-free passwords when the
uniqueness bonus does not decrease — for equal lengths a 4-class password scores at
least a 1-class one, and for equal class diversity a longer password scores at least
a shorter one.  (The counterexample shows the pattern/dictionary penalties and the
uniqueness bonus can invert both comparisons, so these hypotheses are necessary.) -/
theorem c9_amended_strength_monotonicity (d : Bool) (p q : List Char)
    (hp : p ≠ []) (hq : q ≠ [])
    (hpenp : strengthPenalties d p = 0) (hpenq : strengthPenalties d q = 0)
    (hub : uniqBonus q ≤ uniqBonus p) :
    (p.length = q.length → classCount p = 4 → classCount q = 1 →
      checkStrengthScore d q ≤ checkStrengthScore d p) ∧
    (q.length ≤ p.length → classCount p = classCount q →
      checkStrengthScore d q ≤ checkStrengthScore d p) := by
  rw [checkStrengthScore, if_neg hq, checkStrengthScore, if_neg hp, hpenp, hpenq]
  constructor
  · intro hlen hcp hcq
    apply clampScore_mono
    rw [hlen, hcp, hcq]
    omega
  · intro hlen hc
    have hls := lengthScore_mono q.length p.length hlen
    apply clampScore_mono
    rw [hc]
    omega

/-- C9 witness: the amended monotonicity applied to the penalty-free 4-class
"aB3!mpru" (score 70) and 1-class "azbycxdw" (score 40) of equal length 8. -/
theorem c9_amended_strength_monotonicity_witness :
    strengthPenalties true ("aB3!mpru".toList) = 0 ∧
    strengthPenalties true ("azbycxdw".toList) = 0 ∧
    checkStrengthScore true ("azbycxdw".toList) ≤
      checkStrengthScore true ("aB3!mpru".toList) :=
  ⟨by decide, by decide,
    (c9_amended_strength_monotonicity true ("aB3!mpru".toList) ("azbycxdw".toList)
      (by decide) (by decide) (by decide) (by decide) (by decide)).1
      (by decide) (by decide) (by decide)⟩

/-- C10 counterexample: `authService.HashPassword` succeeds on the empty password —
with the KDF and base64 encoder instantiated concretely, hashing "" returns an
encoding instead of an empty-input error. -/
theorem c10_counterexample_auth_hash_empty :
    authHashPassword (fun p s => s ++ p) (fun x => x) "" ("salt") =
      .ok ("salt$salt") := by
  rfl

/-- C10 as amended: the PasswordHasher component's `Hash` rejects an empty plaintext
with the empty-password error, but the auth service's `HashPassword` performs no
empty-input check and returns an encoding even for the empty plaintext. -/
theorem c10_amended_empty_hash (bcryptGen : String → Except Unit String)
    (kdf : String → String → String) (b64 : String → String) (salt : String) :
    hasherHash bcryptGen "" = .error .passwordEmpty ∧
      authHashPassword kdf b64 "" salt = .ok (b64 salt ++ "$" ++ b64 (kdf "" salt)) :=
  ⟨rfl, rfl⟩
